import Mathlib

/-!
Shallow embedding of the timesheet platform licensing backend
(`src/3_Backend_API/Platform_Backend.py`).

The relational store is modelled as explicit lists of rows, one list per
table (`agencies`, `settings`, `versions`, `licenses`), mirroring the
schema created in `setup_database`.  `SERIAL` ids are modelled by a
counter carried in the state; `NOW()` timestamps are passed in as a `Nat`
parameter to each call.  Each HTTP handler becomes a pure function from
the database state and the request fields to a result code paired with
the successor state; an exception raised by the store (a `NOT NULL` or
foreign-key violation) follows the handler's `except` branch: the
transaction is rolled back, so the state is returned unchanged together
with a server-error result.
-/

/-- A row of the `agencies` table: `id SERIAL, name TEXT UNIQUE,
api_key TEXT UNIQUE` (the `created_at` column is never read). -/
structure AgencyRow where
  id : Nat
  name : String
  api_key : String
  deriving Repr, DecidableEq

/-- A row of the `settings` table: `agency_id INTEGER UNIQUE,
total_licenses INTEGER NOT NULL DEFAULT 25`. -/
structure SettingsRow where
  agency_id : Nat
  total_licenses : Int
  deriving Repr, DecidableEq

/-- A row of the `versions` table: unique on `(agency_id, version_number)`. -/
structure VersionRow where
  agency_id : Nat
  version_number : String
  release_date : Nat
  download_url : String
  is_latest : Bool
  deriving Repr, DecidableEq

/-- A row of the `licenses` table: unique on `(agency_id, device_id)`;
`username` is `NOT NULL`, `status` defaults to `'active'`. -/
structure LicenseRow where
  agency_id : Nat
  device_id : String
  username : String
  hostname : Option String
  location : Option String
  operating_system : Option String
  activated_at : Nat
  status : String
  deriving Repr, DecidableEq

/-- The database state: the four tables plus the `agencies` id sequence. -/
structure DB where
  next_agency_id : Nat
  agencies : List AgencyRow
  settings : List SettingsRow
  versions : List VersionRow
  licenses : List LicenseRow
  deriving Repr, DecidableEq

/-- The freshly initialised store (after `setup_database`). -/
def DB.empty : DB := ⟨1, [], [], [], []⟩

/-- `get_agency_id_from_api_key`: resolves the `X-Agency-Api-Key` header
(absent or empty is falsy) to an agency id via
`SELECT id FROM agencies WHERE api_key = %s`. -/
def get_agency_id_from_api_key (db : DB) (api_key : Option String) : Option Nat :=
  match api_key with
  | none => none
  | some k =>
    if k = "" then none
    else
      match db.agencies.find? (fun a => a.api_key == k) with
      | some a => some a.id
      | none => none

/-- `SELECT total_licenses FROM settings WHERE agency_id = %s`, with the
handlers' `(cur.fetchone() or {}).get('total_licenses', 0)` defaulting. -/
def totalLicenses (db : DB) (aid : Nat) : Int :=
  match db.settings.find? (fun s => s.agency_id == aid) with
  | some s => s.total_licenses
  | none => 0

/-- Row predicate for `agency_id = %s AND status = 'active'`. -/
def isActiveFor (t : Nat) (r : LicenseRow) : Bool :=
  r.agency_id == t && r.status == "active"

/-- `SELECT COUNT(*) FROM licenses WHERE agency_id = %s AND status = 'active'`. -/
def activeCount (db : DB) (aid : Nat) : Nat :=
  db.licenses.countP (isActiveFor aid)

/-- Row predicate for `agency_id = %s AND device_id = %s`. -/
def matchKey (aid : Nat) (did : String) (r : LicenseRow) : Bool :=
  r.agency_id == aid && r.device_id == did

/-- Whether a ledger row exists for `(agency, device)` (any status). -/
def hasRow (db : DB) (aid : Nat) (did : String) : Bool :=
  db.licenses.any (matchKey aid did)

/-- `SELECT id FROM licenses WHERE agency_id = %s AND device_id = %s AND
status = 'active'` is non-empty. -/
def hasActiveRow (db : DB) (aid : Nat) (did : String) : Bool :=
  db.licenses.any (fun r => matchKey aid did r && r.status == "active")

/-- Whether the agency id exists (the foreign-key target of the three
dependent tables). -/
def agencyExists (db : DB) (aid : Nat) : Bool :=
  db.agencies.any (fun a => a.id == aid)

/-- The `DO UPDATE` arm of the activation upsert, applied rowwise: the
conflicting `(agency_id, device_id)` row gets `status = 'active'`,
refreshed metadata and `activated_at = NOW()`; other rows are untouched. -/
def applyActivation (aid : Nat) (did u : String) (h l o : Option String)
    (now : Nat) (r : LicenseRow) : LicenseRow :=
  if matchKey aid did r then
    { r with status := "active", username := u, hostname := h, location := l,
             operating_system := o, activated_at := now }
  else r

/-- The row inserted by the activation upsert when no conflict occurs:
`activated_at` and `status` take their schema defaults (`NOW()`, `'active'`). -/
def mkLicenseRow (aid : Nat) (did u : String) (h l o : Option String)
    (now : Nat) : LicenseRow :=
  ⟨aid, did, u, h, l, o, now, "active"⟩

/-- Result codes of `POST /api/v1/license/activate`. -/
inductive ActivateResult where
  | invalidKey       -- 403 "Invalid Agency API Key."
  | deviceRequired   -- 400 "Device ID is required."
  | seatsExhausted   -- 429 "All licenses are currently in use. ..."
  | activated        -- 200 "License activated successfully!"
  | serverError      -- 500, transaction rolled back
  deriving Repr, DecidableEq

/-- `api_activate_license`: reads the seat total and the active count,
requires a device id, applies the admission gate
(`not is_already_active and activated_count >= total_licenses` → 429 with
no mutation), then upserts the ledger row.  A `NULL` username (the
`NOT NULL` column) or an insert for a nonexistent agency (foreign key)
raises, rolling the transaction back. -/
def api_activate_license (db : DB)
    (api_key device_id username hostname location operating_system : Option String)
    (now : Nat) : ActivateResult × DB :=
  match get_agency_id_from_api_key db api_key with
  | none => (.invalidKey, db)
  | some agency_id =>
    if agency_id = 0 then (.invalidKey, db)
    else
      match device_id with
      | none => (.deviceRequired, db)
      | some did =>
        if did = "" then (.deviceRequired, db)
        else
          if hasActiveRow db agency_id did = false ∧
              (activeCount db agency_id : Int) ≥ totalLicenses db agency_id then
            (.seatsExhausted, db)
          else
            match username with
            | none => (.serverError, db)
            | some u =>
              if hasRow db agency_id did then
                (.activated,
                  { db with
                      licenses := db.licenses.map
                        (applyActivation agency_id did u hostname location operating_system now) })
              else if agencyExists db agency_id then
                (.activated,
                  { db with
                      licenses := db.licenses ++
                        [mkLicenseRow agency_id did u hostname location operating_system now] })
              else (.serverError, db)

/-- Result codes of `POST /api/v1/license/check`. -/
inductive CheckResult where
  | invalidKey       -- 403 "Invalid Agency API Key."
  | deviceRequired   -- 400 "Device ID is required."
  | active           -- success: "License is active."
  | deactivated      -- "This license has been deactivated by an administrator."
  | notLicensed      -- "This device has not been licensed."
  deriving Repr, DecidableEq

/-- `api_check_license`: a `SELECT` of the `(agency, device)` row followed
by the tri-state report; the state is passed through untouched. -/
def api_check_license (db : DB) (api_key device_id : Option String) :
    CheckResult × DB :=
  match get_agency_id_from_api_key db api_key with
  | none => (.invalidKey, db)
  | some agency_id =>
    if agency_id = 0 then (.invalidKey, db)
    else
      match device_id with
      | none => (.deviceRequired, db)
      | some did =>
        if did = "" then (.deviceRequired, db)
        else
          match db.licenses.find? (matchKey agency_id did) with
          | some license_record =>
            if license_record.status = "active" then (.active, db)
            else (.deactivated, db)
          | none => (.notLicensed, db)

/-- Responses of `GET /api/v1/version/latest`, mirroring the JSON fields. -/
inductive LatestVersionResult where
  | invalidKey                                  -- 403
  | ok (latest_version download_url : String)   -- 200, success true
  deriving Repr, DecidableEq

/-- `versions` rows with `agency_id = %s AND is_latest = TRUE`. -/
def latestRows (db : DB) (aid : Nat) : List VersionRow :=
  db.versions.filter (fun v => v.agency_id == aid && v.is_latest)

/-- `api_get_latest_version`: returns the `is_latest = TRUE` row, or the
hard-coded fallback `{"latest_version": "99.0.0", "download_url": ""}`
(still `success: true`) when none exists. -/
def api_get_latest_version (db : DB) (api_key : Option String) :
    LatestVersionResult :=
  match get_agency_id_from_api_key db api_key with
  | none => .invalidKey
  | some agency_id =>
    if agency_id = 0 then .invalidKey
    else
      match db.versions.find? (fun v => v.agency_id == agency_id && v.is_latest) with
      | some v => .ok v.version_number v.download_url
      | none => .ok "99.0.0" ""

/-- Result codes of the admin routes (modelled after the super-admin gate
has passed, since the shared-secret comparison touches no state). -/
inductive AdminResult where
  | badRequest    -- 400
  | created       -- 201 (create_agency)
  | duplicate     -- 409 "An agency with this name already exists."
  | ok            -- 200
  | notFound      -- 404
  | serverError   -- 500, transaction rolled back
  deriving Repr, DecidableEq

/-- `create_agency`: requires a (truthy) name, inserts the agency row with
a freshly generated key (`uuid4`, passed in as `new_api_key`), then the
default settings row (`total_licenses = 25`), committing both as one
transaction; an `IntegrityError` (duplicate name, or a key collision)
rolls the whole transaction back and yields 409. -/
def create_agency (db : DB) (agency_name : Option String) (new_api_key : String) :
    AdminResult × DB :=
  match agency_name with
  | none => (.badRequest, db)
  | some s =>
    if s = "" then (.badRequest, db)
    else if db.agencies.any (fun a => a.name == s || a.api_key == new_api_key) then
      (.duplicate, db)
    else
      (.created,
        { db with
            next_agency_id := db.next_agency_id + 1
            agencies := db.agencies ++ [⟨db.next_agency_id, s, new_api_key⟩]
            settings := db.settings ++ [⟨db.next_agency_id, 25⟩] })

/-- `delete_agency`: `DELETE FROM agencies WHERE id = %s` with
`ON DELETE CASCADE` into `settings`, `versions` and `licenses`;
`rowcount == 0` yields 404. -/
def delete_agency (db : DB) (aid : Nat) : AdminResult × DB :=
  if agencyExists db aid then
    (.ok,
      { db with
          agencies := db.agencies.filter (fun a => a.id != aid)
          settings := db.settings.filter (fun s => s.agency_id != aid)
          versions := db.versions.filter (fun v => v.agency_id != aid)
          licenses := db.licenses.filter (fun r => r.agency_id != aid) })
  else (.notFound, db)

/-- `set_total_licenses`: rejects a non-integer or negative payload with
400 before touching the store, then upserts the settings row
(`ON CONFLICT (agency_id) DO UPDATE`); inserting for a nonexistent agency
violates the foreign key, so the generic handler rolls back with 500. -/
def set_total_licenses (db : DB) (aid : Nat) (new_total : Option Int) :
    AdminResult × DB :=
  match new_total with
  | none => (.badRequest, db)
  | some n =>
    if n < 0 then (.badRequest, db)
    else if db.settings.any (fun s => s.agency_id == aid) then
      (.ok, { db with settings := db.settings.map (fun s =>
          if s.agency_id == aid then { s with total_licenses := n } else s) })
    else if agencyExists db aid then
      (.ok, { db with settings := db.settings ++ [⟨aid, n⟩] })
    else (.serverError, db)

/-- Rowwise effect of `UPDATE versions SET is_latest = FALSE WHERE
agency_id = %s`: the agency's rows lose the flag, other rows are untouched. -/
def clearFun (aid : Nat) (v : VersionRow) : VersionRow :=
  if v.agency_id == aid then { v with is_latest := false } else v

/-- `UPDATE versions SET is_latest = FALSE WHERE agency_id = %s`, the
first statement of `set_latest_version`'s transaction. -/
def clearLatest (l : List VersionRow) (aid : Nat) : List VersionRow :=
  l.map (clearFun aid)

/-- The `DO UPDATE` arm of the version upsert, applied rowwise: the
conflicting `(agency_id, version_number)` row gets the new download URL,
`is_latest = TRUE` and `release_date = NOW()`. -/
def upsertVersionFun (aid : Nat) (vn url : String) (now : Nat) (x : VersionRow) : VersionRow :=
  if x.agency_id == aid && x.version_number == vn then
    { x with download_url := url, is_latest := true, release_date := now }
  else x

/-- The state with the `versions` table replaced (all other tables kept). -/
def withVersions (db : DB) (vs : List VersionRow) : DB :=
  { db with versions := vs }

/-- `set_latest_version`: requires truthy `version_number` and
`download_url`, clears `is_latest` on every row of the agency, then
upserts the version with `is_latest = TRUE` and `release_date = NOW()`;
a foreign-key violation on the insert rolls back the whole transaction
(the clearing update included). -/
def set_latest_version (db : DB) (aid : Nat)
    (version_number download_url : Option String) (now : Nat) :
    AdminResult × DB :=
  match version_number, download_url with
  | some vn, some url =>
    if vn = "" ∨ url = "" then (.badRequest, db)
    else
      if db.versions.any (fun v => v.agency_id == aid && v.version_number == vn) then
        (.ok, withVersions db
          ((clearLatest db.versions aid).map (upsertVersionFun aid vn url now)))
      else if agencyExists db aid then
        (.ok, withVersions db (clearLatest db.versions aid ++ [⟨aid, vn, now, url, true⟩]))
      else (.serverError, db)
  | _, _ => (.badRequest, db)

/-- One externally triggered request against the service, carrying every
request-supplied field, so that reachability ranges over the whole exposed
surface: the admin mutators, the three admin routes that run only `SELECT`
statements (`get_agencies`, `get_agency_status`, `get_versions`), and the
client routes (the static root route touches no state at all). -/
inductive Op where
  | createAgency (name : Option String) (key : String)
  | deleteAgency (aid : Nat)
  | setTotalLicenses (aid : Nat) (new_total : Option Int)
  | setLatestVersion (aid : Nat) (vn url : Option String) (now : Nat)
  | getAgencies
  | getAgencyStatus (aid : Nat)
  | getVersions (aid : Nat)
  | activateLicense (api_key device_id username hostname location os : Option String) (now : Nat)
  | checkLicense (api_key device_id : Option String)
  | getLatestVersion (api_key : Option String)
  deriving Repr

/-- The state transformer of one request (the result code is discarded; the
three admin list/report routes execute only `SELECT` statements and commit
nothing, so they pass the state through). -/
def applyOp (db : DB) : Op → DB
  | .createAgency n k => (create_agency db n k).2
  | .deleteAgency a => (delete_agency db a).2
  | .setTotalLicenses a n => (set_total_licenses db a n).2
  | .setLatestVersion a v u t => (set_latest_version db a v u t).2
  | .getAgencies => db
  | .getAgencyStatus _ => db
  | .getVersions _ => db
  | .activateLicense k d un h l o t => (api_activate_license db k d un h l o t).2
  | .checkLicense k d => (api_check_license db k d).2
  | .getLatestVersion _ => db

/-- Running a sequence of requests from a given state. -/
def applyOps (db : DB) (ops : List Op) : DB := ops.foldl applyOp db

/-- States reachable from the empty store through the exposed operations. -/
def Reachable (db : DB) : Prop := ∃ ops, applyOps DB.empty ops = db

/-- The `UNIQUE(agency_id, device_id)` constraint of the `licenses` table. -/
def UniqueLicenses (db : DB) : Prop :=
  db.licenses.Pairwise
    (fun r₁ r₂ => ¬(r₁.agency_id = r₂.agency_id ∧ r₁.device_id = r₂.device_id))

/-- The `UNIQUE(agency_id, version_number)` constraint of the `versions` table. -/
def UniqueVersions (db : DB) : Prop :=
  db.versions.Pairwise
    (fun v₁ v₂ => ¬(v₁.agency_id = v₂.agency_id ∧ v₁.version_number = v₂.version_number))

/-- At most one `is_latest = TRUE` version row for the tenant. -/
def AtMostOneLatest (db : DB) (aid : Nat) : Prop :=
  (latestRows db aid).length ≤ 1

/-- Every ledger row has status `'active'`. -/
def AllActive (db : DB) : Prop :=
  ∀ r ∈ db.licenses, r.status = "active"

/-- A store with one agency (`acme`, key `K1`, id 1, default 25 seats),
used to instantiate the theorems on concrete data. -/
def dbOne : DB := (create_agency DB.empty (some "acme") "K1").2

/-- `dbOne` after shrinking the cap to one seat and activating device
`devA`: one seat configured, one seat in use. -/
def dbFull : DB :=
  (api_activate_license (set_total_licenses dbOne 1 (some 1)).2
    (some "K1") (some "devA") (some "bob") none none none 10).2

/-- `dbFull` with the single ledger row flipped to `'inactive'` (as the
spec's admin deactivation would leave it), for exercising the
reactivation path. -/
def dbInactive : DB :=
  { dbFull with licenses := dbFull.licenses.map (fun r => { r with status := "inactive" }) }

/-- `dbOne` after publishing version `1.0`. -/
def dbVer : DB :=
  (set_latest_version dbOne 1 (some "1.0") (some "http://dl/1") 5).2

/-- The state with the `licenses` table replaced (all other tables kept);
abbreviates the record updates produced by the activation upsert. -/
def withLicenses (db : DB) (ls : List LicenseRow) : DB :=
  { db with licenses := ls }

/-- A sequence of `set_latest_version` requests, each carrying the tenant
id, the optional version number and download URL, and the `NOW()`
timestamp, applied in order (results discarded). -/
def applySetLatestCalls (db : DB)
    (calls : List (Nat × Option String × Option String × Nat)) : DB :=
  calls.foldl (fun d c => (set_latest_version d c.1 c.2.1 c.2.2.1 c.2.2.2).2) db

/-! ### Generic list lemmas used by the invariant proofs -/

theorem countP_map_eq_of_mem {α} (p : α → Bool) (f : α → α) :
    ∀ l : List α, (∀ a ∈ l, p (f a) = p a) → (l.map f).countP p = l.countP p := by
  intro l
  induction l with
  | nil => intro _; rfl
  | cons x xs ih =>
    intro h
    simp only [List.map_cons, List.countP_cons, h x (by simp)]
    rw [ih (fun a ha => h a (by simp [ha]))]

theorem map_eq_self_of_mem {α} (f : α → α) :
    ∀ l : List α, (∀ a ∈ l, f a = a) → l.map f = l := by
  intro l
  induction l with
  | nil => intro _; rfl
  | cons x xs ih =>
    intro h
    simp only [List.map_cons, h x (by simp)]
    rw [ih (fun a ha => h a (by simp [ha]))]

theorem countP_map_le_succ {α} (p q : α → Bool) (f : α → α)
    (hfix : ∀ a, q a = false → f a = a) :
    ∀ l : List α, l.countP q ≤ 1 → (l.map f).countP p ≤ l.countP p + 1 := by
  intro l
  induction l with
  | nil => intro _; simp
  | cons x xs ih =>
    intro hq
    rw [List.countP_cons] at hq
    cases hqx : q x with
    | true =>
      have h1 : (if q x = true then 1 else 0) = 1 := by simp [hqx]
      have hzero : xs.countP q = 0 := by omega
      have hall : ∀ a ∈ xs, ¬q a := List.countP_eq_zero.1 hzero
      have hmapid : xs.map f = xs :=
        map_eq_self_of_mem f xs (fun a ha => hfix a (by
          cases hqa : q a with
          | false => rfl
          | true => exact absurd hqa (by simpa using hall a ha)))
      simp only [List.map_cons, List.countP_cons, hmapid]
      have h1 : (if p (f x) = true then 1 else 0) ≤ 1 := by split <;> simp
      have h2 : 0 ≤ (if p x = true then 1 else 0) := by split <;> simp
      omega
    | false =>
      have h1 : (if q x = true then 1 else 0) = 0 := by simp [hqx]
      have hq' : xs.countP q ≤ 1 := by omega
      have := ih hq'
      simp only [List.map_cons, List.countP_cons, hfix x hqx]
      omega

theorem filter_map_eq_self {α} (p : α → Bool) (f : α → α) :
    ∀ l : List α, (∀ a ∈ l, p (f a) = p a ∧ (p a = true → f a = a)) →
      (l.map f).filter p = l.filter p := by
  intro l
  induction l with
  | nil => intro _; rfl
  | cons x xs ih =>
    intro h
    have hx := h x (by simp)
    have ihx := ih (fun a ha => h a (by simp [ha]))
    cases hpx : p x with
    | true =>
      simp only [List.map_cons, List.filter_cons, hx.1, hpx, hx.2 hpx, if_pos rfl, ihx]
    | false =>
      simp only [List.map_cons, List.filter_cons, hx.1, hpx]
      simpa using ihx

theorem filter_map_single {α} (p q : α → Bool) (f : α → α) (b : α)
    (hmiss : ∀ a, q a = false → p (f a) = false)
    (hhit : ∀ a, q a = true → f a = b)
    (hpb : p b = true) :
    ∀ l : List α, l.countP q ≤ 1 → (∃ a ∈ l, q a = true) →
      (l.map f).filter p = [b] := by
  intro l
  induction l with
  | nil => intro _ hex; simp at hex
  | cons x xs ih =>
    intro hq hex
    rw [List.countP_cons] at hq
    cases hqx : q x with
    | true =>
      have h1 : (if q x = true then 1 else 0) = 1 := by simp [hqx]
      have hzero : xs.countP q = 0 := by omega
      have hall : ∀ a ∈ xs, ¬q a := List.countP_eq_zero.1 hzero
      have hnil : (xs.map f).filter p = [] := by
        rw [List.filter_eq_nil_iff]
        intro a ha
        rcases List.mem_map.1 ha with ⟨a₀, ha₀, rfl⟩
        have hq₀ : q a₀ = false := by
          cases hqa : q a₀ with
          | false => rfl
          | true => exact absurd hqa (by simpa using hall a₀ ha₀)
        simp [hmiss a₀ hq₀]
      simp [List.filter_cons, hhit x hqx, hpb, hnil]
    | false =>
      have h1 : (if q x = true then 1 else 0) = 0 := by simp [hqx]
      have hq' : xs.countP q ≤ 1 := by omega
      have hex' : ∃ a ∈ xs, q a = true := by
        rcases hex with ⟨a, ha, hqa⟩
        rcases List.mem_cons.1 ha with rfl | hmem
        · exact absurd hqa (by simp [hqx])
        · exact ⟨a, hmem, hqa⟩
      have := ih hq' hex'
      simp [List.filter_cons, hmiss x hqx, this]

/-! ### Key-uniqueness consequences and frame lemmas -/

theorem countP_matchKey_le_one (aid : Nat) (did : String) :
    ∀ l : List LicenseRow,
      l.Pairwise (fun r₁ r₂ => ¬(r₁.agency_id = r₂.agency_id ∧ r₁.device_id = r₂.device_id)) →
      l.countP (matchKey aid did) ≤ 1 := by
  intro l
  induction l with
  | nil => intro _; simp
  | cons x xs ih =>
    intro hp
    rw [List.pairwise_cons] at hp
    rw [List.countP_cons]
    cases hqx : matchKey aid did x with
    | true =>
      have hx : x.agency_id = aid ∧ x.device_id = did := by
        simpa [matchKey, Bool.and_eq_true, beq_iff_eq] using hqx
      have hzero : xs.countP (matchKey aid did) = 0 := by
        apply List.countP_eq_zero.2
        intro r hr hq
        have hr' : r.agency_id = aid ∧ r.device_id = did := by
          simpa [matchKey, Bool.and_eq_true, beq_iff_eq] using hq
        exact hp.1 r hr ⟨hx.1.trans hr'.1.symm, hx.2.trans hr'.2.symm⟩
      simp [hzero, hqx]
    | false =>
      have := ih hp.2
      have h1 : (if false = true then 1 else 0) = 0 := rfl
      omega

theorem countP_vkey_le_one (aid : Nat) (vn : String) :
    ∀ l : List VersionRow,
      l.Pairwise (fun v₁ v₂ => ¬(v₁.agency_id = v₂.agency_id ∧ v₁.version_number = v₂.version_number)) →
      l.countP (fun v => v.agency_id == aid && v.version_number == vn) ≤ 1 := by
  intro l
  induction l with
  | nil => intro _; simp
  | cons x xs ih =>
    intro hp
    rw [List.pairwise_cons] at hp
    rw [List.countP_cons]
    cases hqx : (x.agency_id == aid && x.version_number == vn) with
    | true =>
      have hx : x.agency_id = aid ∧ x.version_number = vn := by
        simpa [Bool.and_eq_true, beq_iff_eq] using hqx
      have hzero : xs.countP (fun v => v.agency_id == aid && v.version_number == vn) = 0 := by
        apply List.countP_eq_zero.2
        intro r hr hq
        have hr' : r.agency_id = aid ∧ r.version_number = vn := by
          simpa [Bool.and_eq_true, beq_iff_eq] using hq
        exact hp.1 r hr ⟨hx.1.trans hr'.1.symm, hx.2.trans hr'.2.symm⟩
      simp [hzero, hqx]
    | false =>
      have := ih hp.2
      have h1 : (if false = true then 1 else 0) = 0 := rfl
      omega

theorem find?_matchKey_of_mem (aid : Nat) (did : String) (r : LicenseRow) :
    ∀ l : List LicenseRow,
      l.Pairwise (fun r₁ r₂ => ¬(r₁.agency_id = r₂.agency_id ∧ r₁.device_id = r₂.device_id)) →
      r ∈ l → matchKey aid did r = true → l.find? (matchKey aid did) = some r := by
  intro l
  induction l with
  | nil => intro _ hmem; simp at hmem
  | cons x xs ih =>
    intro hp hmem hq
    rw [List.pairwise_cons] at hp
    have hr : r.agency_id = aid ∧ r.device_id = did := by
      simpa [matchKey, Bool.and_eq_true, beq_iff_eq] using hq
    cases hqx : matchKey aid did x with
    | true =>
      have hx : x.agency_id = aid ∧ x.device_id = did := by
        simpa [matchKey, Bool.and_eq_true, beq_iff_eq] using hqx
      rcases List.mem_cons.1 hmem with rfl | hmem'
      · simp [List.find?_cons, hqx]
      · exact absurd ⟨hx.1.trans hr.1.symm, hx.2.trans hr.2.symm⟩ (hp.1 r hmem')
    | false =>
      have hne : r ≠ x := by
        intro he; rw [he] at hq; rw [hq] at hqx; exact Bool.noConfusion hqx
      rcases List.mem_cons.1 hmem with rfl | hmem'
      · exact absurd rfl hne
      · simp only [List.find?_cons, hqx]
        exact ih hp.2 hmem' hq

theorem hasActiveRow_true_iff (db : DB) (aid : Nat) (did : String) :
    hasActiveRow db aid did = true ↔
      ∃ r ∈ db.licenses, r.agency_id = aid ∧ r.device_id = did ∧ r.status = "active" := by
  simp [hasActiveRow, List.any_eq_true, matchKey, Bool.and_eq_true, beq_iff_eq, and_assoc]

theorem hasRow_true_iff (db : DB) (aid : Nat) (did : String) :
    hasRow db aid did = true ↔
      ∃ r ∈ db.licenses, r.agency_id = aid ∧ r.device_id = did := by
  simp [hasRow, List.any_eq_true, matchKey, Bool.and_eq_true, beq_iff_eq]

theorem hasActiveRow_imp_hasRow (db : DB) (aid : Nat) (did : String)
    (h : hasActiveRow db aid did = true) : hasRow db aid did = true := by
  rcases (hasActiveRow_true_iff db aid did).1 h with ⟨r, hr, h1, h2, _⟩
  exact (hasRow_true_iff db aid did).2 ⟨r, hr, h1, h2⟩

theorem totalLicenses_congr {db db' : DB} (h : db'.settings = db.settings) (aid : Nat) :
    totalLicenses db' aid = totalLicenses db aid := by
  simp [totalLicenses, h]

theorem activate_frame (db : DB)
    (k d u h l o : Option String) (n : Nat) :
    (api_activate_license db k d u h l o n).2.agencies = db.agencies
    ∧ (api_activate_license db k d u h l o n).2.settings = db.settings
    ∧ (api_activate_license db k d u h l o n).2.versions = db.versions
    ∧ (api_activate_license db k d u h l o n).2.next_agency_id = db.next_agency_id := by
  simp only [api_activate_license]
  repeat' split
  all_goals exact ⟨rfl, rfl, rfl, rfl⟩

theorem activeCount_set (db : DB) (ls : List LicenseRow) (t : Nat) :
    activeCount { db with licenses := ls } t = ls.countP (isActiveFor t) := rfl

theorem matchKey_unique_mem (aid : Nat) (did : String) :
    ∀ l : List LicenseRow,
      l.Pairwise (fun r₁ r₂ => ¬(r₁.agency_id = r₂.agency_id ∧ r₁.device_id = r₂.device_id)) →
      ∀ r ∈ l, ∀ r' ∈ l, matchKey aid did r = true → matchKey aid did r' = true → r = r' := by
  intro l
  induction l with
  | nil => intro _ r hr; simp at hr
  | cons x xs ih =>
    intro hp r hr r' hr' hq hq'
    rw [List.pairwise_cons] at hp
    have e : r.agency_id = aid ∧ r.device_id = did := by
      simpa [matchKey, Bool.and_eq_true, beq_iff_eq] using hq
    have e' : r'.agency_id = aid ∧ r'.device_id = did := by
      simpa [matchKey, Bool.and_eq_true, beq_iff_eq] using hq'
    rcases List.mem_cons.1 hr with rfl | hr₂
    · rcases List.mem_cons.1 hr' with rfl | hr₂'
      · rfl
      · exact absurd ⟨e.1.trans e'.1.symm, e.2.trans e'.2.symm⟩ (hp.1 r' hr₂')
    · rcases List.mem_cons.1 hr' with rfl | hr₂'
      · exact absurd ⟨e'.1.trans e.1.symm, e'.2.trans e.2.symm⟩ (hp.1 r hr₂)
      · exact ih hp.2 r hr₂ r' hr₂' hq hq'

theorem applyActivation_of_not_match (aid : Nat) (did u : String) (h l o : Option String)
    (now : Nat) (r : LicenseRow) (hq : matchKey aid did r = false) :
    applyActivation aid did u h l o now r = r := by
  simp [applyActivation, hq]

theorem isActiveFor_applyActivation_of_active (t aid : Nat) (did u : String)
    (h l o : Option String) (now : Nat) (r : LicenseRow)
    (hst : matchKey aid did r = true → r.status = "active") :
    isActiveFor t (applyActivation aid did u h l o now r) = isActiveFor t r := by
  unfold applyActivation
  split
  · rename_i hm
    simp [isActiveFor, hst hm]
  · rfl

theorem isActiveFor_applyActivation_of_ne (t aid : Nat) (did u : String)
    (h l o : Option String) (now : Nat) (r : LicenseRow) (hne : t ≠ aid) :
    isActiveFor t (applyActivation aid did u h l o now r) = isActiveFor t r := by
  unfold applyActivation
  split
  · rename_i hm
    have ha : r.agency_id = aid := by
      simpa [matchKey, Bool.and_eq_true, beq_iff_eq] using And.left
        (by simpa [matchKey, Bool.and_eq_true, beq_iff_eq] using hm :
          r.agency_id = aid ∧ r.device_id = did)
    have hb : (aid == t) = false := by
      simpa [beq_eq_false_iff_ne] using Ne.symm hne
    simp [isActiveFor, ha, hb]
  · rfl

theorem activate_cases (db : DB) (key d u h l o : Option String) (now : Nat) :
    (api_activate_license db key d u h l o now).2 = db
    ∨ ∃ aid did uu,
        get_agency_id_from_api_key db key = some aid ∧
        d = some did ∧ u = some uu ∧
        ¬(hasActiveRow db aid did = false ∧
            (activeCount db aid : Int) ≥ totalLicenses db aid) ∧
        ((hasRow db aid did = true ∧
            (api_activate_license db key d u h l o now).2 =
              { db with licenses :=
                  db.licenses.map (applyActivation aid did uu h l o now) }) ∨
          (hasRow db aid did = false ∧
            (api_activate_license db key d u h l o now).2 =
              { db with licenses :=
                  db.licenses ++ [mkLicenseRow aid did uu h l o now] })) := by
  cases hk : get_agency_id_from_api_key db key with
  | none => exact Or.inl (by simp [api_activate_license, hk])
  | some aid =>
    by_cases h0 : aid = 0
    · exact Or.inl (by simp [api_activate_license, hk, h0])
    · cases d with
      | none => exact Or.inl (by simp [api_activate_license, hk, h0])
      | some did =>
        by_cases hd : did = ""
        · exact Or.inl (by simp [api_activate_license, hk, h0, hd])
        · by_cases hgate : hasActiveRow db aid did = false ∧
              (activeCount db aid : Int) ≥ totalLicenses db aid
          · exact Or.inl (by simp [api_activate_license, hk, h0, hd, hgate])
          · cases u with
            | none => exact Or.inl (by simp [api_activate_license, hk, h0, hd, hgate])
            | some uu =>
              by_cases hrow : hasRow db aid did = true
              · refine Or.inr ⟨aid, did, uu, rfl, rfl, rfl, hgate, Or.inl ⟨hrow, ?_⟩⟩
                simp [api_activate_license, hk, h0, hd, hgate, hrow]
              · by_cases hex : agencyExists db aid = true
                · refine Or.inr ⟨aid, did, uu, rfl, rfl, rfl, hgate,
                    Or.inr ⟨by simpa using hrow, ?_⟩⟩
                  simp [api_activate_license, hk, h0, hd, hgate, hrow, hex]
                · exact Or.inl (by simp [api_activate_license, hk, h0, hd, hgate, hrow, hex])

/-! ### Claims -/

/-- **C1.** For every tenant and every client-facing activate call (any API
key, device id and metadata), if the count of `'active'` license rows for the
tenant is at most the tenant's seat total before the call, it still is after
the call (and the seat total itself is untouched): `activate` never raises the
active count above the seat cap. -/
theorem activate_preserves_seat_cap (db : DB) (t : Nat)
    (key d u h l o : Option String) (now : Nat)
    (huniq : UniqueLicenses db)
    (hle : (activeCount db t : Int) ≤ totalLicenses db t) :
    (activeCount (api_activate_license db key d u h l o now).2 t : Int)
        ≤ totalLicenses (api_activate_license db key d u h l o now).2 t
    ∧ totalLicenses (api_activate_license db key d u h l o now).2 t
        = totalLicenses db t := by
  have htot : totalLicenses (api_activate_license db key d u h l o now).2 t
      = totalLicenses db t :=
    totalLicenses_congr (activate_frame db key d u h l o now).2.1 t
  refine ⟨?_, htot⟩
  rw [htot]
  rcases activate_cases db key d u h l o now with heq |
    ⟨aid, did, uu, hk, hdq, huq, hgate, hbr⟩
  · rw [heq]; exact hle
  · rcases hbr with ⟨hrow, heq⟩ | ⟨hnorow, heq⟩
    · rw [heq, activeCount_set]
      cases hact : hasActiveRow db aid did with
      | true =>
        rcases (hasActiveRow_true_iff db aid did).1 hact with ⟨r₀, hr₀, e1, e2, e3⟩
        have hall : ∀ r ∈ db.licenses, matchKey aid did r = true → r.status = "active" := by
          intro r hr hq
          have he : r = r₀ := matchKey_unique_mem aid did db.licenses huniq r hr r₀ hr₀ hq
            (by simp [matchKey, e1, e2])
          rw [he]; exact e3
        rw [countP_map_eq_of_mem (isActiveFor t) _ db.licenses
          (fun r hr => isActiveFor_applyActivation_of_active t aid did uu h l o now r (hall r hr))]
        exact hle
      | false =>
        have hlt : (activeCount db aid : Int) < totalLicenses db aid := by
          by_contra hge
          exact hgate ⟨hact, not_lt.mp hge⟩
        by_cases ht : t = aid
        · subst ht
          have hbound := countP_map_le_succ (isActiveFor t) (matchKey t did)
            (applyActivation t did uu h l o now)
            (fun r hq => applyActivation_of_not_match t did uu h l o now r hq)
            db.licenses (countP_matchKey_le_one t did db.licenses huniq)
          have hcnt : activeCount db t = db.licenses.countP (isActiveFor t) := rfl
          rw [hcnt] at hlt
          omega
        · rw [countP_map_eq_of_mem (isActiveFor t) _ db.licenses
            (fun r _ => isActiveFor_applyActivation_of_ne t aid did uu h l o now r ht)]
          exact hle
    · rw [heq, activeCount_set, List.countP_append]
      have hact : hasActiveRow db aid did = false := by
        cases hh : hasActiveRow db aid did with
        | false => rfl
        | true => exact absurd (hasActiveRow_imp_hasRow db aid did hh) (by simp [hnorow])
      have hlt : (activeCount db aid : Int) < totalLicenses db aid := by
        by_contra hge
        exact hgate ⟨hact, not_lt.mp hge⟩
      by_cases ht : t = aid
      · subst ht
        have h1 : List.countP (isActiveFor t) [mkLicenseRow t did uu h l o now] = 1 := by
          simp [mkLicenseRow, isActiveFor]
        have hcnt : activeCount db t = db.licenses.countP (isActiveFor t) := rfl
        rw [hcnt] at hlt
        omega
      · have h1 : List.countP (isActiveFor t) [mkLicenseRow aid did uu h l o now] = 0 := by
          have hb : (aid == t) = false := by simpa [beq_eq_false_iff_ne] using Ne.symm ht
          simp [mkLicenseRow, isActiveFor, hb]
        have hcnt : activeCount db t = db.licenses.countP (isActiveFor t) := rfl
        rw [hcnt] at hle
        omega

/-- Concrete instantiation of the C1 theorem: one fresh activation against
the one-agency store keeps tenant 1 at or under its 25-seat cap. -/
theorem activate_preserves_seat_cap_witness :
    (activeCount (api_activate_license dbOne (some "K1") (some "dev") (some "bob")
        none none none 7).2 1 : Int)
      ≤ totalLicenses (api_activate_license dbOne (some "K1") (some "dev") (some "bob")
        none none none 7).2 1
    ∧ totalLicenses (api_activate_license dbOne (some "K1") (some "dev") (some "bob")
        none none none 7).2 1 = totalLicenses dbOne 1 :=
  activate_preserves_seat_cap dbOne 1 (some "K1") (some "dev") (some "bob") none none none 7
    List.Pairwise.nil (by decide)

theorem resolve_congr {db db' : DB} (h : db'.agencies = db.agencies)
    (key : Option String) :
    get_agency_id_from_api_key db' key = get_agency_id_from_api_key db key := by
  simp [get_agency_id_from_api_key, h]

theorem agencyExists_of_resolve (db : DB) (key : Option String) (t : Nat)
    (hk : get_agency_id_from_api_key db key = some t) : agencyExists db t = true := by
  unfold get_agency_id_from_api_key at hk
  cases key with
  | none => simp at hk
  | some k =>
    by_cases hke : k = ""
    · simp [hke] at hk
    · simp only [if_neg hke] at hk
      cases hf : db.agencies.find? (fun a => a.api_key == k) with
      | none => rw [hf] at hk; simp at hk
      | some a =>
        rw [hf] at hk
        have hid : a.id = t := by simpa using hk
        have hmem := List.mem_of_find?_eq_some hf
        exact List.any_eq_true.2 ⟨a, hmem, by simp [hid]⟩

theorem applyActivation_of_match (aid : Nat) (did u : String) (h l o : Option String)
    (now : Nat) (r : LicenseRow) (hq : matchKey aid did r = true) :
    applyActivation aid did u h l o now r = mkLicenseRow aid did u h l o now := by
  have e : r.agency_id = aid ∧ r.device_id = did := by
    simpa [matchKey, Bool.and_eq_true, beq_iff_eq] using hq
  simp [applyActivation, hq, mkLicenseRow, e.1, e.2]

theorem countP_matchKey_zero_of_no_row (db : DB) (aid : Nat) (did : String)
    (h : hasRow db aid did = false) :
    db.licenses.countP (matchKey aid did) = 0 := by
  apply List.countP_eq_zero.2
  intro r hr
  have := List.any_eq_false.1 (by simpa [hasRow] using h) r hr
  simpa using this

theorem activate_gate_trips (db : DB) (t : Nat) (key : Option String)
    (d : String) (u h l o : Option String) (now : Nat)
    (hk : get_agency_id_from_api_key db key = some t) (h0 : t ≠ 0) (hd : d ≠ "")
    (hno : ∀ r ∈ db.licenses, ¬(r.agency_id = t ∧ r.device_id = d ∧ r.status = "active"))
    (hge : (activeCount db t : Int) ≥ totalLicenses db t) :
    api_activate_license db key (some d) u h l o now = (.seatsExhausted, db) := by
  have hact : hasActiveRow db t d = false := by
    cases hh : hasActiveRow db t d with
    | false => rfl
    | true =>
      rcases (hasActiveRow_true_iff db t d).1 hh with ⟨r, hr, e1, e2, e3⟩
      exact absurd ⟨e1, e2, e3⟩ (hno r hr)
  simp [api_activate_license, hk, h0, hd, hact, hge]

/-- **C2.** When no active ledger row exists for `(tenant, device)` and the
tenant's active count has reached (or passed) its seat total, `activate`
fails with the seats-exhausted outcome (HTTP 429) and returns the whole
state unchanged: no mutation happens on this error path. -/
theorem activate_seats_exhausted_no_mutation (db : DB) (t : Nat) (key : Option String)
    (d : String) (u h l o : Option String) (now : Nat)
    (hk : get_agency_id_from_api_key db key = some t) (h0 : t ≠ 0) (hd : d ≠ "")
    (hno : ∀ r ∈ db.licenses, ¬(r.agency_id = t ∧ r.device_id = d ∧ r.status = "active"))
    (hge : (activeCount db t : Int) ≥ totalLicenses db t) :
    api_activate_license db key (some d) u h l o now = (.seatsExhausted, db) :=
  activate_gate_trips db t key d u h l o now hk h0 hd hno hge

/-- Concrete instantiation of the C2 theorem: with 1 seat configured and 1
seat active, activating a second device fails with 429 and changes nothing. -/
theorem activate_seats_exhausted_no_mutation_witness :
    api_activate_license dbFull (some "K1") (some "devB") (some "eve") none none none 11
      = (.seatsExhausted, dbFull) :=
  activate_seats_exhausted_no_mutation dbFull 1 (some "K1") "devB"
    (some "eve") none none none 11 (by decide) (by decide) (by decide)
    (by decide) (by decide)

/-- **C4.** Reactivation is not seat-free: when the tenant's active count
equals its seat total and the ledger row for the device exists with status
`'inactive'`, `activate` fails with the seats-exhausted outcome and leaves
the state unchanged — the admission rule's existing-row check counts only
`'active'` rows, so an inactive row does not exempt the device from the
capacity gate. -/
theorem reactivate_consumes_seat (db : DB) (t : Nat) (key : Option String)
    (d : String) (u h l o : Option String) (now : Nat)
    (huniq : UniqueLicenses db)
    (hk : get_agency_id_from_api_key db key = some t) (h0 : t ≠ 0) (hd : d ≠ "")
    (hrow : ∃ r ∈ db.licenses, r.agency_id = t ∧ r.device_id = d ∧ r.status = "inactive")
    (heq : (activeCount db t : Int) = totalLicenses db t) :
    api_activate_license db key (some d) u h l o now = (.seatsExhausted, db) := by
  rcases hrow with ⟨r₀, hr₀, e1, e2, e3⟩
  apply activate_gate_trips db t key d u h l o now hk h0 hd
  · intro r hr ⟨f1, f2, f3⟩
    have he : r = r₀ := matchKey_unique_mem t d db.licenses huniq r hr r₀ hr₀
      (by simp [matchKey, f1, f2]) (by simp [matchKey, e1, e2])
    rw [he, e3] at f3
    exact absurd f3 (by decide)
  · exact le_of_eq heq.symm

/-- Concrete instantiation of the C4 theorem: tenant 1 has 1 seat, its only
row (`devA`) is inactive, and a fresh activation of `devB` has filled the
seat; reactivating `devA` then fails with 429. -/
theorem reactivate_consumes_seat_witness :
    api_activate_license
        (api_activate_license dbInactive (some "K1") (some "devB") (some "eve")
          none none none 12).2
        (some "K1") (some "devA") (some "bob") none none none 13
      = (.seatsExhausted,
          (api_activate_license dbInactive (some "K1") (some "devB") (some "eve")
            none none none 12).2) :=
  reactivate_consumes_seat
    (api_activate_license dbInactive (some "K1") (some "devB") (some "eve")
      none none none 12).2
    1 (some "K1") "devA" (some "bob") none none none 13
    (by simp [UniqueLicenses]; decide) (by decide) (by decide) (by decide)
    (by decide) (by decide)


theorem activate_update (db : DB) (t : Nat) (key : Option String) (d u : String)
    (h l o : Option String) (n : Nat)
    (hk : get_agency_id_from_api_key db key = some t) (h0 : t ≠ 0) (hd : d ≠ "")
    (hgate : ¬(hasActiveRow db t d = false ∧
      (activeCount db t : Int) ≥ totalLicenses db t))
    (hrow : hasRow db t d = true) :
    api_activate_license db key (some d) (some u) h l o n
      = (.activated, withLicenses db (db.licenses.map (applyActivation t d u h l o n))) := by
  simp [api_activate_license, withLicenses, hk, h0, hd, hgate, hrow]

theorem activate_insert (db : DB) (t : Nat) (key : Option String) (d u : String)
    (h l o : Option String) (n : Nat)
    (hk : get_agency_id_from_api_key db key = some t) (h0 : t ≠ 0) (hd : d ≠ "")
    (hgate : ¬(hasActiveRow db t d = false ∧
      (activeCount db t : Int) ≥ totalLicenses db t))
    (hrow : hasRow db t d = false) :
    api_activate_license db key (some d) (some u) h l o n
      = (.activated, withLicenses db (db.licenses ++ [mkLicenseRow t d u h l o n])) := by
  have hex : agencyExists db t = true := agencyExists_of_resolve db key t hk
  have hnr : ¬hasRow db t d = true := by simp [hrow]
  simp [api_activate_license, withLicenses, hk, h0, hd, hgate, hnr, hex]

/-- **C3.** Activation is idempotent per device: for a tenant strictly under
its seat cap, activating the same device id twice in a row succeeds both
times and leaves exactly one ledger row for `(tenant, device)` — the second
call upserts the existing row, setting status `'active'` and replacing the
username, hostname, location, operating system and activation timestamp with
the second call's values, rather than creating a duplicate row. -/
theorem activate_idempotent_upsert (db : DB) (t : Nat) (key : Option String) (d : String)
    (u₁ u₂ : String) (h₁ l₁ o₁ h₂ l₂ o₂ : Option String) (n₁ n₂ : Nat)
    (huniq : UniqueLicenses db)
    (hk : get_agency_id_from_api_key db key = some t) (h0 : t ≠ 0) (hd : d ≠ "")
    (hcap : (activeCount db t : Int) < totalLicenses db t) :
    (api_activate_license db key (some d) (some u₁) h₁ l₁ o₁ n₁).1 = .activated
    ∧ (api_activate_license (api_activate_license db key (some d) (some u₁) h₁ l₁ o₁ n₁).2
        key (some d) (some u₂) h₂ l₂ o₂ n₂).1 = .activated
    ∧ (api_activate_license (api_activate_license db key (some d) (some u₁) h₁ l₁ o₁ n₁).2
        key (some d) (some u₂) h₂ l₂ o₂ n₂).2.licenses.filter (matchKey t d)
      = [⟨t, d, u₂, h₂, l₂, o₂, n₂, "active"⟩] := by
  have hgate₁ : ¬(hasActiveRow db t d = false ∧
      (activeCount db t : Int) ≥ totalLicenses db t) :=
    fun hc => absurd hcap (not_lt.mpr hc.2)
  have hpb : matchKey t d (⟨t, d, u₂, h₂, l₂, o₂, n₂, "active"⟩ : LicenseRow) = true := by
    simp [matchKey]
  by_cases hrow : hasRow db t d = true
  · -- a row already exists: both calls take the DO UPDATE arm
    have e₁ := activate_update db t key d u₁ h₁ l₁ o₁ n₁ hk h0 hd hgate₁ hrow
    rcases (hasRow_true_iff db t d).1 hrow with ⟨r₀, hr₀, f1, f2⟩
    have hq₀ : matchKey t d r₀ = true := by simp [matchKey, f1, f2]
    have hmem₁ : mkLicenseRow t d u₁ h₁ l₁ o₁ n₁
        ∈ db.licenses.map (applyActivation t d u₁ h₁ l₁ o₁ n₁) :=
      List.mem_map.2 ⟨r₀, hr₀, applyActivation_of_match t d u₁ h₁ l₁ o₁ n₁ r₀ hq₀⟩
    have hact₁ : hasActiveRow (withLicenses db
        (db.licenses.map (applyActivation t d u₁ h₁ l₁ o₁ n₁))) t d = true :=
      (hasActiveRow_true_iff _ t d).2 ⟨mkLicenseRow t d u₁ h₁ l₁ o₁ n₁, hmem₁, rfl, rfl, rfl⟩
    have hrow₁ : hasRow (withLicenses db
        (db.licenses.map (applyActivation t d u₁ h₁ l₁ o₁ n₁))) t d = true :=
      (hasRow_true_iff _ t d).2 ⟨mkLicenseRow t d u₁ h₁ l₁ o₁ n₁, hmem₁, rfl, rfl⟩
    have hk₁ : get_agency_id_from_api_key (withLicenses db
        (db.licenses.map (applyActivation t d u₁ h₁ l₁ o₁ n₁))) key = some t := by
      rw [resolve_congr rfl key]; exact hk
    have hgate₂ : ¬(hasActiveRow (withLicenses db
          (db.licenses.map (applyActivation t d u₁ h₁ l₁ o₁ n₁))) t d = false ∧
        (activeCount (withLicenses db
          (db.licenses.map (applyActivation t d u₁ h₁ l₁ o₁ n₁))) t : Int)
          ≥ totalLicenses (withLicenses db
            (db.licenses.map (applyActivation t d u₁ h₁ l₁ o₁ n₁))) t) := by
      intro hc
      rw [hact₁] at hc
      exact Bool.noConfusion hc.1
    have e₂ := activate_update (withLicenses db
        (db.licenses.map (applyActivation t d u₁ h₁ l₁ o₁ n₁))) t key d u₂ h₂ l₂ o₂ n₂
      hk₁ h0 hd hgate₂ hrow₁
    refine ⟨by rw [e₁], ?_, ?_⟩
    · rw [e₁]
      show (api_activate_license (withLicenses db
          (db.licenses.map (applyActivation t d u₁ h₁ l₁ o₁ n₁))) key
          (some d) (some u₂) h₂ l₂ o₂ n₂).1 = .activated
      rw [e₂]
    · rw [e₁]
      show (api_activate_license (withLicenses db
          (db.licenses.map (applyActivation t d u₁ h₁ l₁ o₁ n₁))) key
          (some d) (some u₂) h₂ l₂ o₂ n₂).2.licenses.filter (matchKey t d)
        = [⟨t, d, u₂, h₂, l₂, o₂, n₂, "active"⟩]
      rw [e₂]
      show ((db.licenses.map (applyActivation t d u₁ h₁ l₁ o₁ n₁)).map
          (applyActivation t d u₂ h₂ l₂ o₂ n₂)).filter (matchKey t d)
        = [⟨t, d, u₂, h₂, l₂, o₂, n₂, "active"⟩]
      rw [List.map_map]
      apply filter_map_single (matchKey t d) (matchKey t d) _ _ ?hmiss ?hhit hpb
        db.licenses (countP_matchKey_le_one t d db.licenses huniq) ⟨r₀, hr₀, hq₀⟩
      case hmiss =>
        intro a ha
        simp only [Function.comp_apply, applyActivation_of_not_match t d u₁ h₁ l₁ o₁ n₁ a ha,
          applyActivation_of_not_match t d u₂ h₂ l₂ o₂ n₂ a ha]
        exact ha
      case hhit =>
        intro a ha
        simp only [Function.comp_apply, applyActivation_of_match t d u₁ h₁ l₁ o₁ n₁ a ha]
        rw [applyActivation_of_match t d u₂ h₂ l₂ o₂ n₂ _ (by simp [matchKey, mkLicenseRow])]
        rfl
  · -- no row yet: the first call inserts, the second updates
    have hrowF : hasRow db t d = false := by simpa using hrow
    have e₁ := activate_insert db t key d u₁ h₁ l₁ o₁ n₁ hk h0 hd hgate₁ hrowF
    have hmem₁ : mkLicenseRow t d u₁ h₁ l₁ o₁ n₁
        ∈ db.licenses ++ [mkLicenseRow t d u₁ h₁ l₁ o₁ n₁] := by simp
    have hact₁ : hasActiveRow (withLicenses db
        (db.licenses ++ [mkLicenseRow t d u₁ h₁ l₁ o₁ n₁])) t d = true :=
      (hasActiveRow_true_iff _ t d).2 ⟨mkLicenseRow t d u₁ h₁ l₁ o₁ n₁, hmem₁, rfl, rfl, rfl⟩
    have hrow₁ : hasRow (withLicenses db
        (db.licenses ++ [mkLicenseRow t d u₁ h₁ l₁ o₁ n₁])) t d = true :=
      (hasRow_true_iff _ t d).2 ⟨mkLicenseRow t d u₁ h₁ l₁ o₁ n₁, hmem₁, rfl, rfl⟩
    have hk₁ : get_agency_id_from_api_key (withLicenses db
        (db.licenses ++ [mkLicenseRow t d u₁ h₁ l₁ o₁ n₁])) key = some t := by
      rw [resolve_congr rfl key]; exact hk
    have hgate₂ : ¬(hasActiveRow (withLicenses db
          (db.licenses ++ [mkLicenseRow t d u₁ h₁ l₁ o₁ n₁])) t d = false ∧
        (activeCount (withLicenses db
          (db.licenses ++ [mkLicenseRow t d u₁ h₁ l₁ o₁ n₁])) t : Int)
          ≥ totalLicenses (withLicenses db
            (db.licenses ++ [mkLicenseRow t d u₁ h₁ l₁ o₁ n₁])) t) := by
      intro hc
      rw [hact₁] at hc
      exact Bool.noConfusion hc.1
    have e₂ := activate_update (withLicenses db
        (db.licenses ++ [mkLicenseRow t d u₁ h₁ l₁ o₁ n₁])) t key d u₂ h₂ l₂ o₂ n₂
      hk₁ h0 hd hgate₂ hrow₁
    refine ⟨by rw [e₁], ?_, ?_⟩
    · rw [e₁]
      show (api_activate_license (withLicenses db
          (db.licenses ++ [mkLicenseRow t d u₁ h₁ l₁ o₁ n₁])) key
          (some d) (some u₂) h₂ l₂ o₂ n₂).1 = .activated
      rw [e₂]
    · rw [e₁]
      show (api_activate_license (withLicenses db
          (db.licenses ++ [mkLicenseRow t d u₁ h₁ l₁ o₁ n₁])) key
          (some d) (some u₂) h₂ l₂ o₂ n₂).2.licenses.filter (matchKey t d)
        = [⟨t, d, u₂, h₂, l₂, o₂, n₂, "active"⟩]
      rw [e₂]
      show ((db.licenses ++ [mkLicenseRow t d u₁ h₁ l₁ o₁ n₁]).map
          (applyActivation t d u₂ h₂ l₂ o₂ n₂)).filter (matchKey t d)
        = [⟨t, d, u₂, h₂, l₂, o₂, n₂, "active"⟩]
      apply filter_map_single (matchKey t d) (matchKey t d) _ _ ?hmiss2 ?hhit2 hpb
        (db.licenses ++ [mkLicenseRow t d u₁ h₁ l₁ o₁ n₁]) ?hcount
        ⟨mkLicenseRow t d u₁ h₁ l₁ o₁ n₁, hmem₁, by simp [matchKey, mkLicenseRow]⟩
      case hmiss2 =>
        intro a ha
        rw [applyActivation_of_not_match t d u₂ h₂ l₂ o₂ n₂ a ha]
        exact ha
      case hhit2 =>
        intro a ha
        rw [applyActivation_of_match t d u₂ h₂ l₂ o₂ n₂ a ha]
        rfl
      case hcount =>
        rw [List.countP_append]
        have hz := countP_matchKey_zero_of_no_row db t d hrowF
        have h1 : List.countP (matchKey t d) [mkLicenseRow t d u₁ h₁ l₁ o₁ n₁] = 1 := by
          simp [matchKey, mkLicenseRow]
        omega

/-- Concrete instantiation of the C3 theorem: activating `dev` twice against
the fresh one-agency store succeeds twice and leaves one row carrying the
second call's metadata. -/
theorem activate_idempotent_upsert_witness :
    (api_activate_license dbOne (some "K1") (some "dev") (some "bob")
        (some "h1") none none 7).1 = .activated
    ∧ (api_activate_license (api_activate_license dbOne (some "K1") (some "dev")
        (some "bob") (some "h1") none none 7).2
        (some "K1") (some "dev") (some "carol") (some "h2") none none 8).1 = .activated
    ∧ (api_activate_license (api_activate_license dbOne (some "K1") (some "dev")
        (some "bob") (some "h1") none none 7).2
        (some "K1") (some "dev") (some "carol") (some "h2") none none 8).2.licenses.filter
          (matchKey 1 "dev")
      = [⟨1, "dev", "carol", some "h2", none, none, 8, "active"⟩] :=
  activate_idempotent_upsert dbOne 1 (some "K1") "dev" "bob" "carol"
    (some "h1") none none (some "h2") none none 7 8
    List.Pairwise.nil (by decide) (by decide) (by decide) (by decide)

theorem latestRows_withVersions (db : DB) (vs : List VersionRow) (t : Nat) :
    latestRows (withVersions db vs) t
      = vs.filter (fun v => v.agency_id == t && v.is_latest) := rfl

theorem clearFun_agency (a : Nat) (x : VersionRow) :
    (clearFun a x).agency_id = x.agency_id := by
  unfold clearFun; split <;> rfl

theorem upsertVersionFun_agency (a : Nat) (v u : String) (now : Nat) (x : VersionRow) :
    (upsertVersionFun a v u now x).agency_id = x.agency_id := by
  unfold upsertVersionFun; split <;> rfl

theorem set_latest_update_eq (db : DB) (a : Nat) (v u : String) (now : Nat)
    (hv : v ≠ "") (hu : u ≠ "")
    (hconf : db.versions.any (fun x => x.agency_id == a && x.version_number == v) = true) :
    set_latest_version db a (some v) (some u) now
      = (.ok, withVersions db
          ((clearLatest db.versions a).map (upsertVersionFun a v u now))) := by
  have hbad : ¬(v = "" ∨ u = "") := by simp [hv, hu]
  simp [set_latest_version, hbad, hconf]

theorem set_latest_insert_eq (db : DB) (a : Nat) (v u : String) (now : Nat)
    (hv : v ≠ "") (hu : u ≠ "")
    (hconf : db.versions.any (fun x => x.agency_id == a && x.version_number == v) = false)
    (hex : agencyExists db a = true) :
    set_latest_version db a (some v) (some u) now
      = (.ok, withVersions db (clearLatest db.versions a ++ [⟨a, v, now, u, true⟩])) := by
  have hbad : ¬(v = "" ∨ u = "") := by simp [hv, hu]
  simp [set_latest_version, hbad, hconf, hex]

theorem set_latest_server_eq (db : DB) (a : Nat) (v u : String) (now : Nat)
    (hv : v ≠ "") (hu : u ≠ "")
    (hconf : db.versions.any (fun x => x.agency_id == a && x.version_number == v) = false)
    (hex : agencyExists db a = false) :
    set_latest_version db a (some v) (some u) now = (.serverError, db) := by
  have hbad : ¬(v = "" ∨ u = "") := by simp [hv, hu]
  simp [set_latest_version, hbad, hconf, hex]

theorem latest_filter_update (db : DB) (a : Nat) (v u : String) (now : Nat)
    (huniq : UniqueVersions db)
    (hconf : db.versions.any (fun x => x.agency_id == a && x.version_number == v) = true) :
    ((clearLatest db.versions a).map (upsertVersionFun a v u now)).filter
        (fun x => x.agency_id == a && x.is_latest)
      = [⟨a, v, now, u, true⟩] := by
  rw [clearLatest, List.map_map]
  apply filter_map_single (fun x => x.agency_id == a && x.is_latest)
      (fun x => x.agency_id == a && x.version_number == v) _ _ ?miss ?hit ?pb
      db.versions (countP_vkey_le_one a v db.versions huniq) (List.any_eq_true.1 hconf)
  case pb => simp
  case miss =>
    intro x hq
    have hq' : (x.agency_id == a && x.version_number == v) = false := hq
    cases ha : (x.agency_id == a) with
    | false => simp [Function.comp, clearFun, upsertVersionFun, ha]
    | true =>
      have hb : (x.version_number == v) = false := by
        cases hbb : (x.version_number == v) with
        | false => rfl
        | true => rw [ha, hbb] at hq'; exact Bool.noConfusion hq'
      simp [Function.comp, clearFun, upsertVersionFun, ha, hb]
  case hit =>
    intro x hq
    have hq' : (x.agency_id == a && x.version_number == v) = true := hq
    have e12 : x.agency_id = a ∧ x.version_number = v := by simpa using hq'
    simp [Function.comp, clearFun, upsertVersionFun, e12.1, e12.2]

theorem latest_filter_update_ne (db : DB) (a t : Nat) (v u : String) (now : Nat)
    (hne : t ≠ a) :
    ((clearLatest db.versions a).map (upsertVersionFun a v u now)).filter
        (fun x => x.agency_id == t && x.is_latest)
      = db.versions.filter (fun x => x.agency_id == t && x.is_latest) := by
  rw [clearLatest, List.map_map]
  apply filter_map_eq_self
  intro x _
  constructor
  · cases ha : (x.agency_id == a) with
    | false => simp [Function.comp, clearFun, upsertVersionFun, ha]
    | true =>
      have e1 : x.agency_id = a := by simpa using ha
      have hxa : (x.agency_id == t) = false := by
        rw [e1]
        simpa [beq_eq_false_iff_ne] using Ne.symm hne
      have hca : ((upsertVersionFun a v u now (clearFun a x)).agency_id == t) = false := by
        rw [upsertVersionFun_agency, clearFun_agency, hxa]
      simp only [Function.comp_apply, hca, hxa, Bool.false_and]
  · intro hpt
    have hpt' : (x.agency_id == t && x.is_latest) = true := hpt
    have e1 : x.agency_id = t := by
      have e12 := by simpa using hpt'
      exact e12.1
    have ha : (x.agency_id == a) = false := by
      rw [e1]
      simpa [beq_eq_false_iff_ne] using hne
    simp [Function.comp, clearFun, upsertVersionFun, ha]

theorem latest_filter_insert (db : DB) (a : Nat) (v u : String) (now : Nat) :
    (clearLatest db.versions a ++ [(⟨a, v, now, u, true⟩ : VersionRow)]).filter
        (fun x => x.agency_id == a && x.is_latest)
      = [⟨a, v, now, u, true⟩] := by
  rw [clearLatest, List.filter_append]
  have h1 : (db.versions.map (clearFun a)).filter
      (fun x => x.agency_id == a && x.is_latest) = [] := by
    rw [List.filter_eq_nil_iff]
    intro x hx
    rcases List.mem_map.1 hx with ⟨y, _, rfl⟩
    cases ha : (y.agency_id == a) with
    | false => simp [clearFun, ha]
    | true => simp [clearFun, ha]
  rw [h1]
  simp

theorem latest_filter_insert_ne (db : DB) (a t : Nat) (v u : String) (now : Nat)
    (hne : t ≠ a) :
    (clearLatest db.versions a ++ [(⟨a, v, now, u, true⟩ : VersionRow)]).filter
        (fun x => x.agency_id == t && x.is_latest)
      = db.versions.filter (fun x => x.agency_id == t && x.is_latest) := by
  rw [clearLatest, List.filter_append]
  have hb : ((a : Nat) == t) = false := by
    simpa [beq_eq_false_iff_ne] using Ne.symm hne
  have h2 : ([(⟨a, v, now, u, true⟩ : VersionRow)]).filter
      (fun x => x.agency_id == t && x.is_latest) = [] := by
    simp [hb]
  rw [h2, List.append_nil]
  apply filter_map_eq_self
  intro x _
  constructor
  · cases ha : (x.agency_id == a) with
    | false => simp [clearFun, ha]
    | true =>
      have e1 : x.agency_id = a := by simpa using ha
      have hxa : (x.agency_id == t) = false := by
        rw [e1]
        simpa [beq_eq_false_iff_ne] using Ne.symm hne
      have hca : ((clearFun a x).agency_id == t) = false := by
        rw [clearFun_agency, hxa]
      simp only [hca, hxa, Bool.false_and]
  · intro hpt
    have hpt' : (x.agency_id == t && x.is_latest) = true := hpt
    have e1 : x.agency_id = t := by
      have e12 := by simpa using hpt'
      exact e12.1
    have ha : (x.agency_id == a) = false := by
      rw [e1]
      simpa [beq_eq_false_iff_ne] using hne
    simp [clearFun, ha]

theorem set_latest_step (db : DB) (a : Nat) (vn url : Option String) (now : Nat)
    (huniq : UniqueVersions db) :
    (∀ t, AtMostOneLatest db t → AtMostOneLatest (set_latest_version db a vn url now).2 t)
    ∧ (∀ v u, vn = some v → url = some u → v ≠ "" → u ≠ "" →
        (set_latest_version db a vn url now).1 = .ok →
        latestRows (set_latest_version db a vn url now).2 a
          = [⟨a, v, now, u, true⟩]) := by
  cases vn with
  | none =>
    exact ⟨fun t h => by simpa [set_latest_version] using h, fun v u hv => by cases hv⟩
  | some v =>
    cases url with
    | none =>
      exact ⟨fun t h => by simpa [set_latest_version] using h, fun v' u _ hu => by cases hu⟩
    | some u =>
      by_cases hv : v = ""
      · have e : set_latest_version db a (some v) (some u) now = (.badRequest, db) := by
          simp [set_latest_version, hv]
        refine ⟨fun t h => by rw [e]; exact h, fun v' u' hv' hu' hvne _ _ => ?_⟩
        obtain rfl := Option.some.inj hv'
        exact absurd hv hvne
      · by_cases hu : u = ""
        · have e : set_latest_version db a (some v) (some u) now = (.badRequest, db) := by
            simp [set_latest_version, hu]
          refine ⟨fun t h => by rw [e]; exact h, fun v' u' hv' hu' _ hune _ => ?_⟩
          obtain rfl := Option.some.inj hu'
          exact absurd hu hune
        · by_cases hconf : db.versions.any
              (fun x => x.agency_id == a && x.version_number == v) = true
          · have e := set_latest_update_eq db a v u now hv hu hconf
            constructor
            · intro t h
              rw [e]
              show AtMostOneLatest (withVersions db
                ((clearLatest db.versions a).map (upsertVersionFun a v u now))) t
              by_cases ht : t = a
              · subst ht
                unfold AtMostOneLatest
                rw [latestRows_withVersions, latest_filter_update db t v u now huniq hconf]
                simp
              · unfold AtMostOneLatest at h ⊢
                rw [latestRows_withVersions, latest_filter_update_ne db a t v u now ht]
                exact h
            · intro v' u' hv' hu' _ _ _
              obtain rfl := Option.some.inj hv'
              obtain rfl := Option.some.inj hu'
              rw [e]
              show latestRows (withVersions db
                ((clearLatest db.versions a).map (upsertVersionFun a v u now))) a = _
              rw [latestRows_withVersions]
              exact latest_filter_update db a v u now huniq hconf
          · have hconfF : db.versions.any
                (fun x => x.agency_id == a && x.version_number == v) = false := by
              simpa using hconf
            by_cases hex : agencyExists db a = true
            · have e := set_latest_insert_eq db a v u now hv hu hconfF hex
              constructor
              · intro t h
                rw [e]
                show AtMostOneLatest (withVersions db
                  (clearLatest db.versions a ++ [⟨a, v, now, u, true⟩])) t
                by_cases ht : t = a
                · subst ht
                  unfold AtMostOneLatest
                  rw [latestRows_withVersions, latest_filter_insert db t v u now]
                  simp
                · unfold AtMostOneLatest at h ⊢
                  rw [latestRows_withVersions, latest_filter_insert_ne db a t v u now ht]
                  exact h
              · intro v' u' hv' hu' _ _ _
                obtain rfl := Option.some.inj hv'
                obtain rfl := Option.some.inj hu'
                rw [e]
                show latestRows (withVersions db
                  (clearLatest db.versions a ++ [⟨a, v, now, u, true⟩])) a = _
                rw [latestRows_withVersions]
                exact latest_filter_insert db a v u now
            · have hexF : agencyExists db a = false := by simpa using hex
              have e := set_latest_server_eq db a v u now hv hu hconfF hexF
              refine ⟨fun t h => by rw [e]; exact h, fun v' u' hv' hu' _ _ hok => ?_⟩
              rw [e] at hok
              exact absurd hok (by simp)

theorem clearFun_version (a : Nat) (x : VersionRow) :
    (clearFun a x).version_number = x.version_number := by
  unfold clearFun; split <;> rfl

theorem upsertVersionFun_version (a : Nat) (v u : String) (now : Nat) (x : VersionRow) :
    (upsertVersionFun a v u now x).version_number = x.version_number := by
  unfold upsertVersionFun; split <;> rfl

theorem pairwise_vkey_map (f : VersionRow → VersionRow)
    (hf : ∀ x, (f x).agency_id = x.agency_id ∧ (f x).version_number = x.version_number) :
    ∀ l : List VersionRow,
      l.Pairwise (fun v₁ v₂ =>
        ¬(v₁.agency_id = v₂.agency_id ∧ v₁.version_number = v₂.version_number)) →
      (l.map f).Pairwise (fun v₁ v₂ =>
        ¬(v₁.agency_id = v₂.agency_id ∧ v₁.version_number = v₂.version_number)) := by
  intro l
  induction l with
  | nil => intro _; exact List.Pairwise.nil
  | cons x xs ih =>
    intro hp
    rw [List.pairwise_cons] at hp
    rw [List.map_cons, List.pairwise_cons]
    refine ⟨?_, ih hp.2⟩
    intro y hy hcon
    rcases List.mem_map.1 hy with ⟨y₀, hy₀, rfl⟩
    exact hp.1 y₀ hy₀
      ⟨((hf x).1).symm.trans (hcon.1.trans (hf y₀).1),
       ((hf x).2).symm.trans (hcon.2.trans (hf y₀).2)⟩

theorem set_latest_uniqueVersions (db : DB) (a : Nat) (vn url : Option String)
    (now : Nat) (h : UniqueVersions db) :
    UniqueVersions (set_latest_version db a vn url now).2 := by
  cases vn with
  | none => simpa [set_latest_version] using h
  | some v =>
    cases url with
    | none => simpa [set_latest_version] using h
    | some u =>
      by_cases hv : v = ""
      · rw [show set_latest_version db a (some v) (some u) now = (.badRequest, db) from
          by simp [set_latest_version, hv]]
        exact h
      · by_cases hu : u = ""
        · rw [show set_latest_version db a (some v) (some u) now = (.badRequest, db) from
            by simp [set_latest_version, hu]]
          exact h
        · by_cases hconf : db.versions.any
              (fun x => x.agency_id == a && x.version_number == v) = true
          · rw [set_latest_update_eq db a v u now hv hu hconf]
            show ((clearLatest db.versions a).map (upsertVersionFun a v u now)).Pairwise _
            rw [clearLatest]
            apply pairwise_vkey_map _
              (fun x => ⟨upsertVersionFun_agency a v u now x, upsertVersionFun_version a v u now x⟩)
            apply pairwise_vkey_map _
              (fun x => ⟨clearFun_agency a x, clearFun_version a x⟩)
            exact h
          · have hconfF : db.versions.any
                (fun x => x.agency_id == a && x.version_number == v) = false := by
              simpa using hconf
            by_cases hex : agencyExists db a = true
            · rw [set_latest_insert_eq db a v u now hv hu hconfF hex]
              show (clearLatest db.versions a
                ++ [(⟨a, v, now, u, true⟩ : VersionRow)]).Pairwise _
              rw [clearLatest, List.pairwise_append]
              refine ⟨pairwise_vkey_map _
                (fun x => ⟨clearFun_agency a x, clearFun_version a x⟩) db.versions h,
                List.Pairwise.cons (fun y hy => absurd hy (List.not_mem_nil y))
                  List.Pairwise.nil, ?_⟩
              intro p hp q hq hcon
              rcases List.mem_map.1 hp with ⟨p₀, hp₀, rfl⟩
              have hq' : q = ⟨a, v, now, u, true⟩ := by simpa using hq
              subst hq'
              have e1 : p₀.agency_id = a := (clearFun_agency a p₀).symm.trans hcon.1
              have e2 : p₀.version_number = v := (clearFun_version a p₀).symm.trans hcon.2
              have hc : db.versions.any
                  (fun x => x.agency_id == a && x.version_number == v) = true :=
                List.any_eq_true.2 ⟨p₀, hp₀, by simp [e1, e2]⟩
              rw [hconfF] at hc
              exact Bool.noConfusion hc
            · rw [set_latest_server_eq db a v u now hv hu hconfF (by simpa using hex)]
              exact h

theorem applySetLatest_unique (calls : List (Nat × Option String × Option String × Nat)) :
    ∀ db : DB, UniqueVersions db → UniqueVersions (applySetLatestCalls db calls) := by
  induction calls with
  | nil => intro db h; exact h
  | cons c rest ih =>
    intro db h
    exact ih _ (set_latest_uniqueVersions db c.1 c.2.1 c.2.2.1 c.2.2.2 h)

theorem applySetLatest_atMostOne (calls : List (Nat × Option String × Option String × Nat)) :
    ∀ (db : DB) (t : Nat), UniqueVersions db → AtMostOneLatest db t →
      AtMostOneLatest (applySetLatestCalls db calls) t := by
  induction calls with
  | nil => intro db t _ h; exact h
  | cons c rest ih =>
    intro db t hu h
    exact ih _ t (set_latest_uniqueVersions db c.1 c.2.1 c.2.2.1 c.2.2.2 hu)
      ((set_latest_step db c.1 c.2.1 c.2.2.1 c.2.2.2 hu).1 t h)

/-- **C5.** Version-pointer exclusivity: for every tenant, after any sequence
of `set_latest` calls (any arguments), at most one version row for the
tenant has `is_latest = true` — the invariant is preserved from any state
satisfying it — and when the most recent call is a successful `set_latest`
for tenant `a` with version `v` and URL `u`, the tenant's `is_latest` rows
are exactly the one upserted row `⟨a, v, now, u, true⟩`: the call first
clears `is_latest` on all of the tenant's versions and then upserts the
given version with `is_latest = true` and the refreshed release timestamp. -/
theorem set_latest_exclusive (db : DB) (huniq : UniqueVersions db) :
    (∀ calls t, AtMostOneLatest db t →
        AtMostOneLatest (applySetLatestCalls db calls) t)
    ∧ (∀ calls (a : Nat) (v u : String) (now : Nat), v ≠ "" → u ≠ "" →
        (set_latest_version (applySetLatestCalls db calls) a (some v) (some u) now).1 = .ok →
        latestRows (set_latest_version (applySetLatestCalls db calls)
            a (some v) (some u) now).2 a
          = [⟨a, v, now, u, true⟩]) :=
  ⟨fun calls t h => applySetLatest_atMostOne calls db t huniq h,
   fun calls a v u now hv hu hok =>
     (set_latest_step (applySetLatestCalls db calls) a (some v) (some u) now
        (applySetLatest_unique calls db huniq)).2 v u rfl rfl hv hu hok⟩

/-- Concrete instantiation of the C5 theorem: after publishing `1.0` and
then `2.0` for tenant 1, the tenant has at most one latest row, and it is
exactly the `2.0` row from the most recent call. -/
theorem set_latest_exclusive_witness :
    AtMostOneLatest (applySetLatestCalls dbOne
      [(1, some "1.0", some "http://dl/1", 5)]) 1
    ∧ latestRows (set_latest_version
        (applySetLatestCalls dbOne [(1, some "1.0", some "http://dl/1", 5)])
        1 (some "2.0") (some "http://dl/2") 6).2 1
      = [⟨1, "2.0", 6, "http://dl/2", true⟩] :=
  ⟨(set_latest_exclusive dbOne List.Pairwise.nil).1
      [(1, some "1.0", some "http://dl/1", 5)] 1 (by unfold AtMostOneLatest; decide),
   (set_latest_exclusive dbOne List.Pairwise.nil).2
      [(1, some "1.0", some "http://dl/1", 5)] 1 "2.0" "http://dl/2" 6
      (by decide) (by decide) (by decide)⟩

/-- **C6.** For a tenant with no `is_latest` version row, the client
get-latest-version call succeeds (it is the `success: true` `ok` response,
not an error) and returns the fixed fallback sentinel `("99.0.0", "")`
meaning "no version published".  The sentinel is distinguishable from an
error (errors are the `invalidKey` responses, a different constructor) and
from any response produced for a tenant that has a published latest version:
in every state whose version rows all carry a nonempty download URL — which
is what `set_latest_version`, the only writer of the table, guarantees by
rejecting empty URLs — the response for an existing latest row carries that
row's nonempty URL, hence differs from the sentinel's empty one. -/
theorem get_latest_fallback (db : DB) (key : Option String) (t : Nat)
    (hk : get_agency_id_from_api_key db key = some t) (h0 : t ≠ 0)
    (hnone : latestRows db t = []) :
    api_get_latest_version db key = .ok "99.0.0" ""
    ∧ (∀ db' key' t', get_agency_id_from_api_key db' key' = some t' → t' ≠ 0 →
        (∀ r ∈ db'.versions, r.download_url ≠ "") →
        latestRows db' t' ≠ [] →
        api_get_latest_version db' key' ≠ .ok "99.0.0" "") := by
  constructor
  · have hfind : db.versions.find? (fun v => v.agency_id == t && v.is_latest) = none := by
      rw [List.find?_eq_none]
      intro x hx hpx
      have hmem : x ∈ latestRows db t := List.mem_filter.2 ⟨hx, hpx⟩
      rw [hnone] at hmem
      simp at hmem
    simp [api_get_latest_version, hk, h0, hfind]
  · intro db' key' t' hk' h0' hurl hlat
    cases hfind : db'.versions.find? (fun v => v.agency_id == t' && v.is_latest) with
    | none =>
      exfalso
      apply hlat
      show db'.versions.filter (fun v => v.agency_id == t' && v.is_latest) = []
      exact List.filter_eq_nil_iff.2 (List.find?_eq_none.1 hfind)
    | some r =>
      have hmem := List.mem_of_find?_eq_some hfind
      have hurlr : r.download_url ≠ "" := hurl r hmem
      have e : api_get_latest_version db' key' = .ok r.version_number r.download_url := by
        simp [api_get_latest_version, hk', h0', hfind]
      rw [e]
      intro hcon
      injection hcon with _ h2
      exact hurlr h2

/-- Concrete instantiation of the C6 theorem: the fresh store has no
published version for tenant 1, and the call returns the sentinel. -/
theorem get_latest_fallback_witness :
    api_get_latest_version dbOne (some "K1") = .ok "99.0.0" ""
    ∧ (∀ db' key' t', get_agency_id_from_api_key db' key' = some t' → t' ≠ 0 →
        (∀ r ∈ db'.versions, r.download_url ≠ "") →
        latestRows db' t' ≠ [] →
        api_get_latest_version db' key' ≠ .ok "99.0.0" "") :=
  get_latest_fallback dbOne (some "K1") 1 (by decide) (by decide) (by decide)

/-- **C7.** `check` is a pure tri-state read: for a resolved tenant and a
nonempty device id it reports "not licensed" when no ledger row exists for
the pair, "active" when the row's status is `'active'`, and "deactivated by
an administrator" when the row exists with any other status; and (for all
inputs whatsoever) it returns the state unchanged — it never mutates the
ledger, the seat policy, or anything else. -/
theorem check_tristate (db : DB) (key : Option String) (t : Nat) (d : String)
    (huniq : UniqueLicenses db)
    (hk : get_agency_id_from_api_key db key = some t) (h0 : t ≠ 0) (hd : d ≠ "") :
    ((∀ r ∈ db.licenses, ¬(r.agency_id = t ∧ r.device_id = d)) →
        api_check_license db key (some d) = (.notLicensed, db))
    ∧ (∀ r ∈ db.licenses, r.agency_id = t → r.device_id = d → r.status = "active" →
        api_check_license db key (some d) = (.active, db))
    ∧ (∀ r ∈ db.licenses, r.agency_id = t → r.device_id = d → r.status ≠ "active" →
        api_check_license db key (some d) = (.deactivated, db))
    ∧ (∀ key' d', (api_check_license db key' d').2 = db) := by
  refine ⟨?_, ?_, ?_, ?_⟩
  · intro hno
    have hfind : db.licenses.find? (matchKey t d) = none := by
      rw [List.find?_eq_none]
      intro x hx hpx
      have e : x.agency_id = t ∧ x.device_id = d := by
        simpa [matchKey, Bool.and_eq_true, beq_iff_eq] using hpx
      exact hno x hx e
    simp [api_check_license, hk, h0, hd, hfind]
  · intro r hr e1 e2 e3
    have hfind := find?_matchKey_of_mem t d r db.licenses huniq hr
      (by simp [matchKey, e1, e2])
    simp [api_check_license, hk, h0, hd, hfind, e3]
  · intro r hr e1 e2 e3
    have hfind := find?_matchKey_of_mem t d r db.licenses huniq hr
      (by simp [matchKey, e1, e2])
    simp [api_check_license, hk, h0, hd, hfind, e3]
  · intro key' d'
    simp only [api_check_license]
    repeat' split
    all_goals rfl

/-- Concrete instantiation of the C7 theorem: in the one-seat store the
activated device reports active, an unknown device reports not licensed,
and the state is returned unchanged. -/
theorem check_tristate_witness :
    api_check_license dbFull (some "K1") (some "devA") = (.active, dbFull)
    ∧ api_check_license dbFull (some "K1") (some "devX") = (.notLicensed, dbFull)
    ∧ (api_check_license dbFull (some "K1") (some "devA")).2 = dbFull :=
  ⟨(check_tristate dbFull (some "K1") 1 "devA"
      (List.Pairwise.cons (fun y hy => absurd hy (List.not_mem_nil y)) List.Pairwise.nil)
      (by decide) (by decide) (by decide)).2.1
      ⟨1, "devA", "bob", none, none, none, 10, "active"⟩ (by decide) rfl rfl rfl,
   (check_tristate dbFull (some "K1") 1 "devX"
      (List.Pairwise.cons (fun y hy => absurd hy (List.not_mem_nil y)) List.Pairwise.nil)
      (by decide) (by decide) (by decide)).1 (by decide),
   (check_tristate dbFull (some "K1") 1 "devA"
      (List.Pairwise.cons (fun y hy => absurd hy (List.not_mem_nil y)) List.Pairwise.nil)
      (by decide) (by decide) (by decide)).2.2.2 (some "K1") (some "devA")⟩

/-- **C8.** `create_tenant` is atomic and initialises the seat policy: with a
truthy name that collides with no existing agency name (and a generated key
colliding with no existing key), the call succeeds with 201 and appends, as
one unit, exactly the agency row (carrying the fresh key) and its settings
row with the default 25 seats, touching nothing else; with a name that
already exists it fails with the duplicate outcome (409) and the whole state
is returned unchanged — no tenant row and no seat-policy row is left behind. -/
theorem create_agency_atomic (db : DB) (name : Option String) (k : String) :
    (∀ s, name = some s → s ≠ "" →
      (∀ a ∈ db.agencies, a.name ≠ s ∧ a.api_key ≠ k) →
      create_agency db name k
        = (.created,
            { next_agency_id := db.next_agency_id + 1,
              agencies := db.agencies ++ [⟨db.next_agency_id, s, k⟩],
              settings := db.settings ++ [⟨db.next_agency_id, 25⟩],
              versions := db.versions,
              licenses := db.licenses }))
    ∧ (∀ s, name = some s → s ≠ "" → (∃ a ∈ db.agencies, a.name = s) →
      create_agency db name k = (.duplicate, db)) := by
  constructor
  · rintro s rfl hs hfresh
    have hany : db.agencies.any (fun a => a.name == s || a.api_key == k) = false := by
      rw [List.any_eq_false]
      intro a ha
      have hf := hfresh a ha
      simp [hf.1, hf.2]
    simp [create_agency, hs, hany]
  · rintro s rfl hs ⟨a, ha, he⟩
    have hany : db.agencies.any (fun a => a.name == s || a.api_key == k) = true :=
      List.any_eq_true.2 ⟨a, ha, by simp [he]⟩
    simp [create_agency, hs, hany]

/-- Concrete instantiation of the C8 theorem: creating `beta` against the
one-agency store appends both rows; re-creating `acme` yields 409 and the
unchanged state. -/
theorem create_agency_atomic_witness :
    create_agency dbOne (some "beta") "K2"
      = (.created,
          { next_agency_id := dbOne.next_agency_id + 1,
            agencies := dbOne.agencies ++ [⟨dbOne.next_agency_id, "beta", "K2"⟩],
            settings := dbOne.settings ++ [⟨dbOne.next_agency_id, 25⟩],
            versions := dbOne.versions,
            licenses := dbOne.licenses })
    ∧ create_agency dbOne (some "acme") "K3" = (.duplicate, dbOne) :=
  ⟨(create_agency_atomic dbOne (some "beta") "K2").1 "beta" rfl (by decide) (by decide),
   (create_agency_atomic dbOne (some "acme") "K3").2 "acme" rfl (by decide) (by decide)⟩

theorem find?_settings_update (a : Nat) (n : Int) :
    ∀ l : List SettingsRow,
      l.any (fun s => s.agency_id == a) = true →
      (l.map (fun s => if s.agency_id == a then { s with total_licenses := n } else s)).find?
          (fun s => s.agency_id == a)
        = some ⟨a, n⟩ := by
  intro l
  induction l with
  | nil => intro h; simp at h
  | cons x xs ih =>
    intro h
    rw [List.map_cons, List.find?_cons]
    rcases Bool.eq_false_or_eq_true (x.agency_id == a) with hx | hx
    · have e : x.agency_id = a := by simpa using hx
      have hgx : (if (x.agency_id == a) = true
          then ({ x with total_licenses := n } : SettingsRow) else x) = ⟨a, n⟩ := by
        rw [if_pos hx]
        simp [e]
      rw [hgx]
      have hpa : ((⟨a, n⟩ : SettingsRow).agency_id == a) = true := by simp
      rw [hpa]
    · have hgx : (if (x.agency_id == a) = true
          then ({ x with total_licenses := n } : SettingsRow) else x) = x :=
        if_neg (by simp [hx])
      rw [hgx, hx]
      apply ih
      rcases List.any_eq_true.1 h with ⟨y, hy, hp⟩
      rcases List.mem_cons.1 hy with rfl | hy₂
      · exact absurd hp (by simp [hx])
      · exact List.any_eq_true.2 ⟨y, hy₂, hp⟩

theorem find?_settings_update_ne (a : Nat) (n : Int) (t : Nat) (hne : t ≠ a) :
    ∀ l : List SettingsRow,
      (l.map (fun s => if s.agency_id == a then { s with total_licenses := n } else s)).find?
          (fun s => s.agency_id == t)
        = l.find? (fun s => s.agency_id == t) := by
  intro l
  induction l with
  | nil => rfl
  | cons x xs ih =>
    rw [List.map_cons, List.find?_cons, List.find?_cons]
    rcases Bool.eq_false_or_eq_true (x.agency_id == a) with hx | hx
    · have e : x.agency_id = a := by simpa using hx
      have ht : (x.agency_id == t) = false := by
        rw [e]; simpa [beq_eq_false_iff_ne] using Ne.symm hne
      have hgx : (if (x.agency_id == a) = true
          then ({ x with total_licenses := n } : SettingsRow) else x)
          = ⟨x.agency_id, n⟩ := by
        rw [if_pos hx]
      rw [hgx]
      have hpt : ((⟨x.agency_id, n⟩ : SettingsRow).agency_id == t) = false := ht
      rw [hpt]
      exact ih
    · have hgx : (if (x.agency_id == a) = true
          then ({ x with total_licenses := n } : SettingsRow) else x) = x :=
        if_neg (by simp [hx])
      rw [hgx]
      rcases Bool.eq_false_or_eq_true (x.agency_id == t) with ht | ht
      · rw [ht]
      · rw [ht]; exact ih

/-- **C9.** `set_total_seats` validates and has no effect outside the seat
policy: a request whose payload is not an integer or is negative fails with
the invalid-input outcome (400) and changes nothing; regardless of the
input, the license ledger, the versions table and the agencies table are
unchanged by the call; and a valid request against an existing tenant
succeeds, sets exactly that tenant's seat total, and leaves every other
tenant's total as it was. -/
theorem set_total_licenses_spec (db : DB) (a : Nat) (nt : Option Int) :
    ((nt = none ∨ ∃ n, nt = some n ∧ n < 0) →
        set_total_licenses db a nt = (.badRequest, db))
    ∧ (set_total_licenses db a nt).2.licenses = db.licenses
    ∧ (set_total_licenses db a nt).2.versions = db.versions
    ∧ (set_total_licenses db a nt).2.agencies = db.agencies
    ∧ (∀ n, nt = some n → 0 ≤ n → agencyExists db a = true →
        (set_total_licenses db a nt).1 = .ok
        ∧ totalLicenses (set_total_licenses db a nt).2 a = n
        ∧ (∀ t, t ≠ a →
            totalLicenses (set_total_licenses db a nt).2 t = totalLicenses db t)) := by
  refine ⟨?_, ?_, ?_, ?_, ?_⟩
  · rintro (rfl | ⟨n, rfl, hn⟩)
    · simp [set_total_licenses]
    · simp [set_total_licenses, hn]
  · simp only [set_total_licenses]
    repeat' split
    all_goals rfl
  · simp only [set_total_licenses]
    repeat' split
    all_goals rfl
  · simp only [set_total_licenses]
    repeat' split
    all_goals rfl
  · rintro n rfl hn hex
    have hn' : ¬(n < 0) := not_lt.2 hn
    cases hhas : db.settings.any (fun s => s.agency_id == a) with
    | true =>
      have e : set_total_licenses db a (some n)
          = (.ok, { db with settings := db.settings.map (fun s =>
              if s.agency_id == a then { s with total_licenses := n } else s) }) := by
        simp [set_total_licenses, hn', hhas]
      refine ⟨by rw [e], ?_, ?_⟩
      · rw [e]
        show totalLicenses { db with settings := db.settings.map (fun s =>
            if s.agency_id == a then { s with total_licenses := n } else s) } a = n
        unfold totalLicenses
        rw [show ({ db with settings := db.settings.map (fun s =>
            if s.agency_id == a then { s with total_licenses := n } else s) } : DB).settings
          = db.settings.map (fun s =>
            if s.agency_id == a then { s with total_licenses := n } else s) from rfl]
        rw [find?_settings_update a n db.settings hhas]
      · intro t ht
        rw [e]
        show totalLicenses { db with settings := db.settings.map (fun s =>
            if s.agency_id == a then { s with total_licenses := n } else s) } t
          = totalLicenses db t
        unfold totalLicenses
        rw [show ({ db with settings := db.settings.map (fun s =>
            if s.agency_id == a then { s with total_licenses := n } else s) } : DB).settings
          = db.settings.map (fun s =>
            if s.agency_id == a then { s with total_licenses := n } else s) from rfl]
        rw [find?_settings_update_ne a n t ht db.settings]
    | false =>
      have e : set_total_licenses db a (some n)
          = (.ok, { db with settings := db.settings ++ [⟨a, n⟩] }) := by
        simp [set_total_licenses, hn', hhas, hex]
      have hfnone : db.settings.find? (fun s => s.agency_id == a) = none := by
        rw [List.find?_eq_none]
        intro x hx hp
        have hcontra : db.settings.any (fun s => s.agency_id == a) = true :=
          List.any_eq_true.2 ⟨x, hx, hp⟩
        rw [hhas] at hcontra
        exact Bool.noConfusion hcontra
      refine ⟨by rw [e], ?_, ?_⟩
      · rw [e]
        show totalLicenses { db with settings := db.settings ++ [⟨a, n⟩] } a = n
        unfold totalLicenses
        rw [show ({ db with settings := db.settings ++ [⟨a, n⟩] } : DB).settings
          = db.settings ++ [⟨a, n⟩] from rfl]
        rw [List.find?_append, hfnone]
        simp
      · intro t ht
        rw [e]
        show totalLicenses { db with settings := db.settings ++ [⟨a, n⟩] } t
          = totalLicenses db t
        unfold totalLicenses
        rw [show ({ db with settings := db.settings ++ [⟨a, n⟩] } : DB).settings
          = db.settings ++ [⟨a, n⟩] from rfl]
        rw [List.find?_append]
        have h2 : ([(⟨a, n⟩ : SettingsRow)]).find? (fun s => s.agency_id == t) = none := by
          have hb : ((a : Nat) == t) = false := by
            simpa [beq_eq_false_iff_ne] using Ne.symm ht
          simp [List.find?_cons, hb]
        rw [h2]
        cases db.settings.find? (fun s => s.agency_id == t) <;> rfl

/-- Concrete instantiation of the C9 theorem: a negative payload is a 400
no-op, the ledger is never touched, and a valid payload sets tenant 1's
total to 7 while leaving tenant 2's (absent) policy alone. -/
theorem set_total_licenses_spec_witness :
    set_total_licenses dbFull 1 (some (-3)) = (.badRequest, dbFull)
    ∧ (set_total_licenses dbFull 1 (some 7)).2.licenses = dbFull.licenses
    ∧ (set_total_licenses dbFull 1 (some 7)).1 = .ok
    ∧ totalLicenses (set_total_licenses dbFull 1 (some 7)).2 1 = 7
    ∧ totalLicenses (set_total_licenses dbFull 1 (some 7)).2 2 = totalLicenses dbFull 2 :=
  ⟨(set_total_licenses_spec dbFull 1 (some (-3))).1 (Or.inr ⟨-3, rfl, by decide⟩),
   (set_total_licenses_spec dbFull 1 (some 7)).2.1,
   ((set_total_licenses_spec dbFull 1 (some 7)).2.2.2.2 7 rfl (by decide) (by decide)).1,
   ((set_total_licenses_spec dbFull 1 (some 7)).2.2.2.2 7 rfl (by decide) (by decide)).2.1,
   ((set_total_licenses_spec dbFull 1 (some 7)).2.2.2.2 7 rfl (by decide) (by decide)).2.2
     2 (by decide)⟩

theorem create_agency_licenses (db : DB) (n : Option String) (k : String) :
    (create_agency db n k).2.licenses = db.licenses := by
  simp only [create_agency]
  repeat' split
  all_goals rfl

theorem set_total_licenses_licenses (db : DB) (a : Nat) (nt : Option Int) :
    (set_total_licenses db a nt).2.licenses = db.licenses := by
  simp only [set_total_licenses]
  repeat' split
  all_goals rfl

theorem set_latest_version_licenses (db : DB) (a : Nat) (vn url : Option String) (now : Nat) :
    (set_latest_version db a vn url now).2.licenses = db.licenses := by
  simp only [set_latest_version]
  repeat' split
  all_goals rfl

theorem api_check_license_state (db : DB) (k d : Option String) :
    (api_check_license db k d).2 = db := by
  simp only [api_check_license]
  repeat' split
  all_goals rfl

theorem delete_agency_licenses_sub (db : DB) (a : Nat) (r : LicenseRow)
    (hr : r ∈ (delete_agency db a).2.licenses) : r ∈ db.licenses := by
  unfold delete_agency at hr
  split at hr
  · exact (List.mem_filter.1 hr).1
  · exact hr

theorem allActive_applyOp (db : DB) (op : Op) (h : AllActive db) :
    AllActive (applyOp db op) := by
  cases op with
  | createAgency n k =>
    intro r hr
    simp only [applyOp] at hr
    rw [create_agency_licenses] at hr
    exact h r hr
  | deleteAgency a =>
    intro r hr
    simp only [applyOp] at hr
    exact h r (delete_agency_licenses_sub db a r hr)
  | setTotalLicenses a nt =>
    intro r hr
    simp only [applyOp] at hr
    rw [set_total_licenses_licenses] at hr
    exact h r hr
  | setLatestVersion a vn url now =>
    intro r hr
    simp only [applyOp] at hr
    rw [set_latest_version_licenses] at hr
    exact h r hr
  | activateLicense k d un hh ll oo tt =>
    intro r hr
    simp only [applyOp] at hr
    rcases activate_cases db k d un hh ll oo tt with heq |
      ⟨aid, did, uu, _, _, _, _, hbr⟩
    · rw [heq] at hr; exact h r hr
    · rcases hbr with ⟨_, heq⟩ | ⟨_, heq⟩
      · rw [heq] at hr
        rcases List.mem_map.1 hr with ⟨x, hx, rfl⟩
        unfold applyActivation
        split
        · rfl
        · exact h x hx
      · rw [heq] at hr
        rcases List.mem_append.1 hr with hx | hx
        · exact h r hx
        · have he : r = mkLicenseRow aid did uu hh ll oo tt := by simpa using hx
          rw [he]; rfl
  | getAgencies => exact h
  | getAgencyStatus a => exact h
  | getVersions a => exact h
  | checkLicense k d =>
    intro r hr
    simp only [applyOp] at hr
    rw [api_check_license_state] at hr
    exact h r hr
  | getLatestVersion k => exact h

theorem check_deactivated_mem (db : DB) (key d : Option String)
    (h : (api_check_license db key d).1 = .deactivated) :
    ∃ r ∈ db.licenses, r.status ≠ "active" := by
  unfold api_check_license at h
  repeat' split at h
  all_goals first
    | (rename_i r heq hst; exact ⟨r, List.mem_of_find?_eq_some heq, hst⟩)
    | (exfalso; simp at h)

/-- **C10.** No operation exposed by this source ever writes status
`'inactive'`: the schema defaults `status` to `'active'` and the only write
to the `licenses` table is the activate upsert, which sets it to `'active'`
(there is no admin bulk status route in this code).  Consequently, starting
from the empty store, every license row of every reachable state has status
`'active'`, and the "deactivated by an administrator" branch of `check` is
unreachable through the program's own operations. -/
theorem reachable_all_active (db : DB) (h : Reachable db) :
    AllActive db
    ∧ ∀ key d, (api_check_license db key d).1 ≠ CheckResult.deactivated := by
  obtain ⟨ops, rfl⟩ := h
  have hgen : ∀ (ops' : List Op) (db₀ : DB), AllActive db₀ →
      AllActive (applyOps db₀ ops') := by
    intro ops'
    induction ops' with
    | nil => intro db₀ h₀; exact h₀
    | cons op rest ih =>
      intro db₀ h₀
      exact ih (applyOp db₀ op) (allActive_applyOp db₀ op h₀)
  have hAA : AllActive (applyOps DB.empty ops) :=
    hgen ops DB.empty (fun r hr => absurd hr (by simp [DB.empty]))
  refine ⟨hAA, ?_⟩
  intro key d hcon
  obtain ⟨r, hr, hst⟩ := check_deactivated_mem _ key d hcon
  exact hst (hAA r hr)

/-- Concrete instantiation of the C10 theorem: the state reached by creating
an agency and activating one device has only `'active'` rows, and `check`
never answers "deactivated" on it. -/
theorem reachable_all_active_witness :
    AllActive (applyOps DB.empty
      [Op.createAgency (some "acme") "K1",
       Op.activateLicense (some "K1") (some "dev") (some "bob") none none none 3])
    ∧ ∀ key d,
        (api_check_license (applyOps DB.empty
          [Op.createAgency (some "acme") "K1",
           Op.activateLicense (some "K1") (some "dev") (some "bob") none none none 3])
          key d).1 ≠ CheckResult.deactivated :=
  reachable_all_active _
    ⟨[Op.createAgency (some "acme") "K1",
      Op.activateLicense (some "K1") (some "dev") (some "bob") none none none 3], rfl⟩
